import Mathlib

/-!
Shallow embedding of the core logic of `pos_streamlit.py`: numeric coercion
(`to_float`), underlying detection (`detect_underlying`), the BTC/ETH index
map, position valuation, the position-table sort, the alert-evaluation loop,
and the Google-Sheets-backed alert store.

Modelling conventions: Python floats are rationals (`ℚ`); Python `None` and
caught failures are `Option`; the one reachable uncaught exception point is
an `Except`.  String values coming from the exchange payload are modelled by
`PyVal`; `detect_underlying`, `to_float` and the ticker loop are translated
statement by statement from the source.
-/

namespace PosStreamlit

/-- A JSON-like Python value, as delivered by the exchange API payloads. -/
inductive PyVal where
  | none
  | bool (b : Bool)
  | int (n : Int)
  | num (q : ℚ)
  | str (s : String)
  | list (xs : List PyVal)
  | dict (entries : List (String × PyVal))

/-- Python truthiness for `PyVal` (`if x:` / `x or y`). -/
def truthy : PyVal → Bool
  | .none => false
  | .bool b => b
  | .int n => n != 0
  | .num q => q != 0
  | .str s => !s.isEmpty
  | .list xs => !xs.isEmpty
  | .dict es => !es.isEmpty

/-- Python `d.get(k)`: the value stored under `k`, `None` when the key is absent. -/
def pyGet (d : List (String × PyVal)) (k : String) : PyVal :=
  match d.find? (fun e => e.1 == k) with
  | some e => e.2
  | none => PyVal.none

/-- Python `a or b`: `a` when truthy, else `b`. -/
def pyOr (a b : PyVal) : PyVal :=
  if truthy a then a else b

/-- The entries of a dict value; any non-dict is treated as having none. -/
def entriesOf : PyVal → List (String × PyVal)
  | .dict d => d
  | _ => []

/-- Value of a list of ASCII digits read in base 10. -/
def natOfDigits (cs : List Char) : Nat :=
  cs.foldl (fun a c => a * 10 + (c.toNat - 48)) 0

/-- Syntactic phase of parsing a decimal literal the way Python's `float`
does on the payload strings this program meets: an optional sign, then
digits with at most one decimal point and at least one digit.  The result is
the signed mantissa together with the number of fractional digits.
(Exponents, whitespace, underscores and `inf`/`nan` spellings do not occur in
the formatted or payload strings these claims evaluate and are not
modelled.) -/
def parseDec (s : String) : Option (Int × Nat) :=
  let p : Int × List Char :=
    match s.data with
    | c :: r => if c = '-' then (-1, r) else if c = '+' then (1, r) else (1, s.data)
    | [] => (1, [])
  let ip := p.2.takeWhile Char.isDigit
  let rest := p.2.dropWhile Char.isDigit
  match rest with
  | [] => if ip.isEmpty then none else some (p.1 * natOfDigits ip, 0)
  | '.' :: frac =>
      if frac.all Char.isDigit && !(ip.isEmpty && frac.isEmpty) then
        some (p.1 * (natOfDigits ip * 10 ^ frac.length + natOfDigits frac), frac.length)
      else none
  | _ => none

/-- Python `float(s)` on a string: the value of the decimal literal, `None` when the
string does not parse. -/
def parseFloat? (s : String) : Option ℚ :=
  (parseDec s).map (fun p => (p.1 : ℚ) / (10 : ℚ) ^ p.2)

/-- The helper `to_float` (source lines 149-153): `float(x)` with `TypeError` and
`ValueError` caught, returning `None`.  `float` succeeds on bools, ints,
floats and numeric strings and raises (caught) on everything else. -/
def to_float : PyVal → Option ℚ
  | .bool b => some (if b then 1 else 0)
  | .int n => some (n : ℚ)
  | .num q => some q
  | .str s => parseFloat? s
  | _ => none

/-- Python `s.upper()` (the payload strings are ASCII). -/
def upperStr (s : String) : String :=
  String.mk (s.data.map Char.toUpper)

/-- Python substring containment: `needle in hay`. -/
def containsSub (hay needle : String) : Bool :=
  hay.data.tails.any (fun t => needle.data.isPrefixOf t)

/-- Shared classification step of `detect_underlying`: on an (uppercased)
string, `BTC` wins over `ETH`, neither gives no classification. -/
def classifyBtcEth (v : String) : Option String :=
  if containsSub v "BTC" then some "BTC"
  else if containsSub v "ETH" then some "ETH"
  else none

/-- The key loop of `detect_underlying` (lines 158-165): for each key in
order, if the value is a string whose uppercase contains `BTC`/`ETH`, return
the classification, otherwise move on to the next key. -/
def scanKeys (prod : List (String × PyVal)) : List String → Option String
  | [] => none
  | k :: ks =>
    match pyGet prod k with
    | .str s =>
      match classifyBtcEth (upperStr s) with
      | some r => some r
      | none => scanKeys prod ks
    | _ => scanKeys prod ks

/-- The `spot_index` step of `detect_underlying` (lines 166-172):
`spot = product.get("spot_index") or {}`, and if it is a dict,
`(spot.get("symbol") or "").upper()` is classified.  When the `symbol`
value is truthy but not a string, `.upper()` raises `AttributeError`. -/
def spotStep (prod : List (String × PyVal)) : Except String (Option String) :=
  let spotV := pyGet prod "spot_index"
  let spot := if truthy spotV then spotV else PyVal.dict []
  match spot with
  | .dict sd =>
    let symV := pyGet sd "symbol"
    if truthy symV then
      match symV with
      | .str s => .ok (classifyBtcEth (upperStr s))
      | _ => .error "AttributeError"
    else .ok (classifyBtcEth (upperStr ""))
  | _ => .ok none

/-- The class `\w` of Python's `re` on the ASCII symbols at hand. -/
def isWordChar (c : Char) : Bool :=
  c.isAlphanum || c = '_'

/-- Does `needle` occur at the head of `rest` delimited by word boundaries
(`prev` is the character just before `rest`, if any)? -/
def wordAt (needle : List Char) (prev : Option Char) (rest : List Char) : Bool :=
  needle.isPrefixOf rest &&
  (match prev with
   | some c => !isWordChar c
   | none => true) &&
  (match rest.drop needle.length with
   | c :: _ => !isWordChar c
   | [] => true)

/-- Python `re.search(r"\b(BTC|ETH)\b", txt)`: scan left to right, at each position
try `BTC` then `ETH` as a whole word. -/
def wordSearchAux (prev : Option Char) : List Char → Option String
  | [] => none
  | c :: cs =>
    if wordAt "BTC".data prev (c :: cs) then some "BTC"
    else if wordAt "ETH".data prev (c :: cs) then some "ETH"
    else wordSearchAux (some c) cs

/-- The fallback-symbol step of `detect_underlying` (lines 173-180):
whole-word `BTC`/`ETH` first, then bare substring containment. -/
def fallbackStep (fallback_symbol : String) : Option String :=
  let txt := upperStr fallback_symbol
  match wordSearchAux none txt.data with
  | some r => some r
  | none =>
    if containsSub txt "BTC" then some "BTC"
    else if containsSub txt "ETH" then some "ETH"
    else none

/-- The detector `detect_underlying` (lines 155-181).  `none` is the `return None`
("unknown") case; `Except.error` is the reachable `AttributeError` in the
`spot_index` step. -/
def detect_underlying (product : PyVal) (fallback_symbol : String) :
    Except String (Option String) :=
  let prod := entriesOf product
  match scanKeys prod
      ["underlying_symbol", "underlying", "base_asset_symbol", "settlement_asset_symbol"] with
  | some r => .ok (some r)
  | none =>
    match spotStep prod with
    | .error e => .error e
    | .ok (some r) => .ok (some r)
    | .ok none => .ok (fallbackStep fallback_symbol)

/-- The `spot_index.symbol` value is absent, falsy, or a string — the domain
on which the source's `spot_index` step cannot raise. -/
def spotSymbolSafe (prod : List (String × PyVal)) : Bool :=
  let spotV := pyGet prod "spot_index"
  let spot := if truthy spotV then spotV else PyVal.dict []
  match spot with
  | .dict sd =>
    let symV := pyGet sd "symbol"
    !truthy symV ||
    (match symV with
     | .str _ => true
     | _ => false)
  | _ => true

/-- The Underlying Detector as claim C4's words describe it: only the FIRST
key present with a string value is classified; when that classification
fails the remaining keys are not consulted, and the spot-index and fallback
steps decide (treating a malformed spot step as no signal, since the claim
asserts the detector never raises). -/
def detectUnderlyingClaim (product : PyVal) (fallback_symbol : String) :
    Option String :=
  let prod := entriesOf product
  let firstStr :=
    ["underlying_symbol", "underlying", "base_asset_symbol", "settlement_asset_symbol"].findSome?
      (fun k =>
        match pyGet prod k with
        | .str s => some s
        | _ => none)
  match (match firstStr with
         | some s => classifyBtcEth (upperStr s)
         | none => none) with
  | some r => some r
  | none =>
    match spotStep prod with
    | .ok (some r) => some r
    | _ => fallbackStep fallback_symbol

/-- One raw ticker from `/v2/tickers`.  The four price fields carry the raw
payload value; `symbol` is the payload's symbol field, which in every ticker
this loop meets is a string or absent (a truthy non-string would make
`.upper()` raise on line 215 and is outside the model's domain). -/
structure Ticker where
  symbol : Option String
  index_price : PyVal
  spot_price : PyVal
  last_traded_price : PyVal
  mark_price : PyVal

/-- Line 215: `(t.get("symbol") or "").upper()`. -/
def tickSym (t : Ticker) : String :=
  upperStr (t.symbol.getD "")

/-- Line 216: the first truthy of the four price fields. -/
def tickRawPrice (t : Ticker) : PyVal :=
  pyOr t.index_price (pyOr t.spot_price (pyOr t.last_traded_price t.mark_price))

/-- Lines 216-219 fused: coerce the selected raw price with `to_float` and
drop it when falsy (`if not price: continue`). -/
def tickPrice? (t : Ticker) : Option ℚ :=
  match to_float (tickRawPrice t) with
  | some p => if p = 0 then none else some p
  | none => none

/-- One iteration of the index-map loop (lines 214-223); the pair is the
`(BTC, ETH)` entries of `index_map`. -/
def stepIndexMap (m : Option ℚ × Option ℚ) (t : Ticker) : Option ℚ × Option ℚ :=
  match tickPrice? t with
  | none => m
  | some p =>
    (if containsSub (tickSym t) "BTC" && containsSub (tickSym t) "USD" && m.1.isNone
       then some p else m.1,
     if containsSub (tickSym t) "ETH" && containsSub (tickSym t) "USD" && m.2.isNone
       then some p else m.2)

/-- The whole index-map loop over the cycle's ticker list. -/
def index_map (tickers : List Ticker) : Option ℚ × Option ℚ :=
  tickers.foldl stepIndexMap (none, none)

/-- A ticker that would populate the BTC entry of an empty map. -/
def qualifiesBTC (t : Ticker) : Bool :=
  (tickPrice? t).isSome && containsSub (tickSym t) "BTC" && containsSub (tickSym t) "USD"

/-- A ticker that would populate the ETH entry of an empty map. -/
def qualifiesETH (t : Ticker) : Bool :=
  (tickPrice? t).isSome && containsSub (tickSym t) "ETH" && containsSub (tickSym t) "USD"

/-- Line 248: `{"BTC": 1000.0, "ETH": 100.0}.get(underlying, 1.0)`. -/
def lots_per_coin (underlying : String) : ℚ :=
  if underlying = "BTC" then 1000 else if underlying = "ETH" then 100 else 1

/-- Lines 246-249: `size_coins` is computed only when `size_lots` is not
`None` and `underlying` is truthy (a non-`None` underlying is one of the
nonempty strings `"BTC"`/`"ETH"`, but the source tests truthiness). -/
def size_coins_of : Option ℚ → Option String → Option ℚ
  | some sl, some u => if u.isEmpty then none else some (sl / lots_per_coin u)
  | _, _ => none

/-- Lines 250-254: unrealized P&L, short branch when `size_coins < 0`. -/
def upnl_of : Option ℚ → Option ℚ → Option ℚ → Option ℚ
  | some e, some m, some sc =>
      some (if sc < 0 then (e - m) * |sc| else (m - e) * |sc|)
  | _, _, _ => none

/-- One row of the position table (lines 256-264): the symbol plus the
fixed-precision formatted strings, `None` for an unresolved value. -/
structure Row where
  symbol : String
  size_lots : Option String
  size_coins : Option String
  entry_price : Option String
  index_price : Option String
  mark_price : Option String
  upnl : Option String
  deriving DecidableEq

/-- Pandas `row.iloc[0].get(key)` on the column labels of the table; an unknown
label yields `None`. -/
def rowGet (r : Row) (key : String) : Option String :=
  if key = "Symbol" then some r.symbol
  else if key = "Size (lots)" then r.size_lots
  else if key = "Size (coins)" then r.size_coins
  else if key = "Entry Price" then r.entry_price
  else if key = "Index Price" then r.index_price
  else if key = "Mark Price" then r.mark_price
  else if key = "UPNL (USD)" then r.upnl
  else none

/-- The sort key of line 269: `abs(float(v)) if v else -999999`.  The rows
built on lines 256-264 only ever carry `%.2f`-formatted strings, which always
parse; a truthy string that failed to parse would raise `ValueError` in the
source and is mapped to the null key here, which the sort theorems exclude by
hypothesis. -/
def sortKey : Option String → ℚ
  | none => -999999
  | some s =>
    if s.isEmpty then -999999
    else
      match parseFloat? s with
      | some q => |q|
      | none => -999999

/-- Descending comparison on the sort key. -/
def rowLE (a b : Row) : Bool :=
  decide (sortKey b.upnl ≤ sortKey a.upnl)

/-- One admissible output of line 269's `sort_values` call: descending in
`sortKey` with one concrete tie order.  The source uses pandas' DEFAULT sort
kind (quicksort, with descending order obtained from a reversed ascending
argsort), which does not specify the relative order of tied keys, so only
`sortSpec` below is guaranteed; `sortRows` serves to evaluate the sort on
concrete tables and to show the guarantee is realizable. -/
def sortRows (rows : List Row) : List Row :=
  rows.mergeSort rowLE

/-- Everything line 269 guarantees of the sorted table: it is a permutation
of the assembled rows that is pairwise descending in the sort key.  With the
default (unstable) sort kind, any output satisfying this is admissible — in
particular the order of rows with tied keys is NOT specified. -/
def sortSpec (input output : List Row) : Prop :=
  output.Perm input ∧
  output.Pairwise (fun a b => sortKey b.upnl ≤ sortKey a.upnl)

/-- A durable alert rule (the dicts kept in `st.session_state.alerts`). -/
structure Rule where
  symbol : String
  criteria : String
  condition : String
  threshold : ℚ
  status : String
  deriving DecidableEq

/-- The contents of one Telegram notification (line 296). -/
structure Notif where
  symbol : String
  criteria : String
  condition : String
  threshold : ℚ
  deriving DecidableEq

/-- Line 294: the condition comparator branches on the literal string
`">="`; every other condition string falls to `value <= threshold`. -/
def condHolds (condition : String) (v threshold : ℚ) : Bool :=
  if condition = ">=" then decide (v ≥ threshold) else decide (v ≤ threshold)

/-- One iteration of the alert-check loop (lines 285-296): find the first
table row with the rule's symbol, read the column named by the rule's
criteria, coerce it with `float` (`None` and unparsable strings are caught
and skipped), compare, and on success emit the notification.  The loop never
consults the rule's status. -/
def evalAlert (table : List Row) (alert : Rule) : Option Notif :=
  match table.find? (fun r => r.symbol == alert.symbol) with
  | none => none
  | some row =>
    match rowGet row alert.criteria with
    | none => none
    | some s =>
      match parseFloat? s with
      | none => none
      | some v =>
        if condHolds alert.condition v alert.threshold then
          some ⟨alert.symbol, alert.criteria, alert.condition, alert.threshold⟩
        else none

/-- The notifications one full pass of the alert-check loop sends. -/
def alertNotifs (alerts : List Rule) (table : List Row) : List Notif :=
  alerts.filterMap (evalAlert table)

/-- A worksheet cell.  `update` writes strings and numbers; `get_all_values`
renders a number as its decimal string, which Python's `float` parses back
to the same value (the float/str round trip), so reading a numeric cell with
`float` is modelled as yielding the stored value directly (`cellFloat?`). -/
inductive Cell where
  | str (s : String)
  | num (q : ℚ)
  deriving DecidableEq

/-- Truthiness of a rendered cell: a number renders as a nonempty digit
string, a string cell is truthy when nonempty. -/
def cellTruthy : Cell → Bool
  | .str s => !s.isEmpty
  | .num _ => true

/-- The rendered string of a cell (`get_all_values`). -/
def cellStr : Cell → String
  | .str s => s
  | .num q =>
    if q.den = 1 then toString q.num else toString q.num ++ "/" ++ toString q.den

/-- Python `float(cell)` on a rendered cell (see `Cell`). -/
def cellFloat? : Cell → Option ℚ
  | .str s => parseFloat? s
  | .num q => some q

/-- Lines 65-76: parse one sheet row into a rule.  The row must have at
least five columns and a truthy first cell; an unparsable threshold is
skipped (`ValueError` caught); the criteria and condition columns are taken
verbatim with no validation. -/
def parseRow : List Cell → Option Rule
  | c0 :: c1 :: c2 :: c3 :: c4 :: _ =>
    if cellTruthy c0 then
      match cellFloat? c3 with
      | some t => some ⟨cellStr c0, cellStr c1, cellStr c2, t, cellStr c4⟩
      | none => none
    else none
  | _ => none

/-- The row-parsing loop of `load_alerts_from_sheet`: invalid rows are
silently dropped. -/
def parseRows (rows : List (List Cell)) : List Rule :=
  rows.filterMap parseRow

/-- The header row written by `update_google_sheet` (line 103). -/
def headerCells : List Cell :=
  [Cell.str "Symbol", Cell.str "Criteria", Cell.str "Condition",
   Cell.str "Threshold", Cell.str "Status"]

/-- Lines 107-115: one rule serialized to a sheet row. -/
def serializeRule (r : Rule) : List Cell :=
  [Cell.str r.symbol, Cell.str r.criteria, Cell.str r.condition,
   Cell.num r.threshold, Cell.str r.status]

/-- The writer `update_google_sheet` (lines 86-126): clear the worksheet, then write
the header followed by every rule, active and inactive, in order. -/
def saveSheet (alerts : List Rule) : List (List Cell) :=
  headerCells :: alerts.map serializeRule

/-- The externally observable state of the spreadsheet backend. -/
inductive Store where
  | unreachable
  | noWorksheet
  | sheet (values : List (List Cell))

/-- The reader `load_alerts_from_sheet` (lines 39-84) as a function of the store state
and the in-memory rule list, returning the new list and the reported
success flag.  Any exception (client failure, unreachable sheet) returns
`False` with memory untouched; a missing worksheet, or one with at most a
header row, returns `True` with memory untouched; otherwise the whole list
is replaced by the parsed data rows. -/
def loadAlerts (store : Store) (mem : List Rule) : List Rule × Bool :=
  match store with
  | .unreachable => (mem, false)
  | .noWorksheet => (mem, true)
  | .sheet values =>
    if values.length ≤ 1 then (mem, true) else (parseRows values.tail, true)

/-- The alert-form submit handler (lines 362-396): a zero threshold is
rejected; a rule matching an existing one on all four identity fields
(status ignored) is rejected; otherwise the new rule is appended with status
`Active`.  The returned flag is whether the rule was added. -/
def submitAlert (alerts : List Rule) (symbol criteria condition : String)
    (threshold : ℚ) : List Rule × Bool :=
  if threshold ≠ 0 then
    if alerts.any (fun a =>
        a.symbol == symbol && a.criteria == criteria &&
        a.condition == condition && a.threshold == threshold) then
      (alerts, false)
    else
      (alerts ++ [⟨symbol, criteria, condition, threshold, "Active"⟩], true)
  else (alerts, false)

/-- Concrete rows for the sort example: `upnl` values `5`, null, `-20`. -/
def row5 : Row := ⟨"AAA", none, none, none, none, none, some "5.00"⟩

/-- The null-`upnl` row of the sort example. -/
def rowNull : Row := ⟨"BBB", none, none, none, none, none, none⟩

/-- The `-20`-`upnl` row of the sort example. -/
def rowNeg20 : Row := ⟨"CCC", none, none, none, none, none, some "-20.00"⟩

/-- A row whose sort key ties with `rowTieB` (both keys are `5`). -/
def rowTieA : Row := ⟨"TIE1", none, none, none, none, none, some "5.00"⟩

/-- A distinct row whose sort key ties with `rowTieA` (`abs(-5) = 5`). -/
def rowTieB : Row := ⟨"TIE2", none, none, none, none, none, some "-5.00"⟩

/-- An `Inactive` rule whose condition holds on `btcRow`. -/
def inactiveRule : Rule := ⟨"BTCUSD", "UPNL (USD)", ">=", 10, "Inactive"⟩

/-- A table row for `BTCUSD` with `UPNL (USD)` formatted as `20.00`. -/
def btcRow : Row :=
  ⟨"BTCUSD", some "-2000", some "-2.00", some "100.00", none, some "90.00", some "20.00"⟩

/-- An in-memory rule that stale-survives an emptied worksheet. -/
def staleRule : Rule := ⟨"BTCUSD", "UPNL (USD)", ">=", 10, "Active"⟩

/-- C7: Numeric Coercion is a total function: every input yields an optional
value and never raises — "no value" for a dict such as `{"x": 1}`, for
`None`, and for the non-numeric string `"abc"`, and `3.5` for the numeric
string `"3.5"`. -/
theorem to_float_total :
    (∀ x : PyVal, to_float x = none ∨ ∃ q, to_float x = some q) ∧
    to_float (PyVal.dict [("x", PyVal.int 1)]) = none ∧
    to_float PyVal.none = none ∧
    to_float (PyVal.str "abc") = none ∧
    to_float (PyVal.str "3.5") = some (7 / 2 : ℚ) := by
  refine ⟨fun x => ?_, rfl, rfl, by decide, ?_⟩
  · match h : to_float x with
    | none => exact Or.inl rfl
    | some q => exact Or.inr ⟨q, rfl⟩
  · have hp : parseDec "3.5" = some (35, 1) := by decide
    simp only [to_float, parseFloat?, hp, Option.map_some']
    norm_num

/-- C10: the evaluator branches on the literal condition string `">="`; every
other condition string — `"<="` but also malformed or enum-named values such
as `"GTE"`, which `load` stores verbatim because the criteria and condition
columns are never validated — is evaluated as `value ≤ threshold`. -/
theorem condition_fallback_le :
    (∀ (c : String) (v t : ℚ), c ≠ ">=" → (condHolds c v t = true ↔ v ≤ t)) ∧
    parseRow [Cell.str "BTCUSD", Cell.str "UPNL (USD)", Cell.str "GTE",
        Cell.num 5, Cell.str "Active"]
      = some ⟨"BTCUSD", "UPNL (USD)", "GTE", 5, "Active"⟩ := by
  constructor
  · intro c v t hc
    simp [condHolds, hc]
  · have h : cellTruthy (Cell.str "BTCUSD") = true := by decide
    simp [parseRow, h, cellFloat?, cellStr]

/-- Witness for `condition_fallback_le` at the enum-named condition `"GTE"`. -/
theorem condition_fallback_le_witness : condHolds "GTE" (5 : ℚ) 10 = true :=
  (condition_fallback_le.1 "GTE" 5 10 (by decide)).mpr (by norm_num)

/-- C2: `upnl_usd` is computed iff `entry_price`, `mark_price` and
`size_coins` are all known; when `size_coins < 0` it is
`(entry − mark)·|size|`, otherwise `(mark − entry)·|size|`; and `-2000` lots
of a BTC contract with entry `100` and mark `90` give `size_coins = -2` and
`upnl = 20`. -/
theorem upnl_guard_and_branches :
    (∀ e m sc : Option ℚ, (upnl_of e m sc).isSome ↔ (e.isSome ∧ m.isSome ∧ sc.isSome)) ∧
    (∀ e m sc : ℚ, sc < 0 → upnl_of (some e) (some m) (some sc) = some ((e - m) * |sc|)) ∧
    (∀ e m sc : ℚ, ¬ sc < 0 → upnl_of (some e) (some m) (some sc) = some ((m - e) * |sc|)) ∧
    size_coins_of (some (-2000)) (some "BTC") = some (-2) ∧
    upnl_of (some 100) (some 90) (some (-2)) = some 20 := by
  refine ⟨?_, ?_, ?_, ?_, ?_⟩
  · intro e m sc
    cases e <;> cases m <;> cases sc <;> simp [upnl_of]
  · intro e m sc h
    simp [upnl_of, h]
  · intro e m sc h
    simp [upnl_of, h]
  · have hne : ("BTC" : String).isEmpty = false := by decide
    simp only [size_coins_of, lots_per_coin, hne, Bool.false_eq_true, if_false,
      if_pos rfl, Option.some.injEq]
    norm_num
  · have h : ((-2 : ℚ)) < 0 := by norm_num
    simp only [upnl_of, h, if_pos, Option.some.injEq]
    norm_num

/-- Witness for `upnl_guard_and_branches`: the short branch at the example
inputs. -/
theorem upnl_guard_and_branches_witness :
    upnl_of (some 100) (some 90) (some (-2 : ℚ)) = some ((100 - 90) * |(-2 : ℚ)|) :=
  upnl_guard_and_branches.2.1 100 90 (-2) (by norm_num)

/-- C8: a submission matching an existing rule on all four identity fields is
rejected regardless of either rule's status, a zero threshold is rejected —
in both cases the rule list is unchanged — and an accepted rule is appended
with status `Active`. -/
theorem add_alert_spec (alerts : List Rule) (sym crit cond : String) (thr : ℚ) :
    (thr = 0 → submitAlert alerts sym crit cond thr = (alerts, false)) ∧
    ((∃ a ∈ alerts, a.symbol = sym ∧ a.criteria = crit ∧ a.condition = cond ∧
        a.threshold = thr) →
      submitAlert alerts sym crit cond thr = (alerts, false)) ∧
    (thr ≠ 0 →
      (¬ ∃ a ∈ alerts, a.symbol = sym ∧ a.criteria = crit ∧ a.condition = cond ∧
        a.threshold = thr) →
      submitAlert alerts sym crit cond thr
        = (alerts ++ [⟨sym, crit, cond, thr, "Active"⟩], true)) := by
  have hany : (alerts.any (fun a =>
        a.symbol == sym && a.criteria == crit &&
        a.condition == cond && a.threshold == thr) = true)
      ↔ ∃ a ∈ alerts, a.symbol = sym ∧ a.criteria = crit ∧ a.condition = cond ∧
          a.threshold = thr := by
    simp [List.any_eq_true, and_assoc]
  refine ⟨?_, ?_, ?_⟩
  · intro h
    simp [submitAlert, h]
  · intro h
    by_cases hz : thr = 0
    · simp [submitAlert, hz]
    · simp [submitAlert, hz, hany.mpr h]
  · intro hz hdup
    have hfalse : (alerts.any (fun a =>
        a.symbol == sym && a.criteria == crit &&
        a.condition == cond && a.threshold == thr)) = false := by
      cases hc : alerts.any (fun a =>
          a.symbol == sym && a.criteria == crit &&
          a.condition == cond && a.threshold == thr)
      · rfl
      · exact absurd (hany.mp hc) hdup
    simp [submitAlert, hz, hfalse]

/-- Witness for `add_alert_spec`: zero threshold, a duplicate against an
`Inactive` rule, and an accepted rule. -/
theorem add_alert_spec_witness :
    submitAlert [inactiveRule] "X" "UPNL (USD)" ">=" 0 = ([inactiveRule], false) ∧
    submitAlert [inactiveRule] "BTCUSD" "UPNL (USD)" ">=" 10 = ([inactiveRule], false) ∧
    submitAlert [inactiveRule] "ETHUSD" "Mark Price" "<=" 5
      = ([inactiveRule] ++ [⟨"ETHUSD", "Mark Price", "<=", 5, "Active"⟩], true) := by
  refine ⟨(add_alert_spec _ _ _ _ _).1 rfl, (add_alert_spec _ _ _ _ _).2.1 ?_,
    (add_alert_spec _ _ _ _ _).2.2 ?_ ?_⟩
  · exact ⟨inactiveRule, by simp, rfl, rfl, rfl, rfl⟩
  · norm_num
  · rintro ⟨a, ha, h1, h2, h3, h4⟩
    simp only [List.mem_singleton] at ha
    subst ha
    exact absurd h1 (by decide)

/-- C9 counterexample: with the store reachable but the worksheet holding
only the header row, `load()` reports success yet leaves the in-memory list
intact instead of replacing it with the store's (empty) parsed contents. -/
theorem load_keeps_memory_on_empty_sheet :
    loadAlerts (Store.sheet [headerCells]) [staleRule] = ([staleRule], true) ∧
    parseRows [headerCells].tail = [] ∧
    ([staleRule] : List Rule) ≠ [] := by
  refine ⟨rfl, rfl, by simp⟩

/-- C9 amended: `load()` is atomic on failure — an unreachable store leaves
memory untouched and reports failure without raising; a missing worksheet,
or one with at most a header row, also leaves memory untouched (reporting
success); otherwise the whole in-memory list is replaced by the parsed data
rows, silently skipping rows with fewer than five columns, a falsy first
cell, or a non-numeric threshold. -/
theorem load_amended :
    (∀ mem, loadAlerts Store.unreachable mem = (mem, false)) ∧
    (∀ mem, loadAlerts Store.noWorksheet mem = (mem, true)) ∧
    (∀ values mem, values.length ≤ 1 → loadAlerts (Store.sheet values) mem = (mem, true)) ∧
    (∀ values mem, 1 < values.length →
      loadAlerts (Store.sheet values) mem = (parseRows values.tail, true)) ∧
    (∀ row, row.length < 5 → parseRow row = none) ∧
    (∀ c1 c2 c3 c4 rest, parseRow (Cell.str "" :: c1 :: c2 :: c3 :: c4 :: rest) = none) ∧
    (∀ c0 c1 c2 c3 c4 rest, cellFloat? c3 = none →
      parseRow (c0 :: c1 :: c2 :: c3 :: c4 :: rest) = none) ∧
    (∀ row rows, parseRow row = none → parseRows (row :: rows) = parseRows rows) := by
  refine ⟨fun mem => rfl, fun mem => rfl, ?_, ?_, ?_, ?_, ?_, ?_⟩
  · intro values mem h
    simp [loadAlerts, h]
  · intro values mem h
    have h2 : ¬ values.length ≤ 1 := by omega
    simp [loadAlerts, h2]
  · intro row h
    rcases row with _ | ⟨c0, _ | ⟨c1, _ | ⟨c2, _ | ⟨c3, _ | ⟨c4, rest⟩⟩⟩⟩⟩
    · rfl
    · rfl
    · rfl
    · rfl
    · rfl
    · simp only [List.length_cons] at h
      omega
  · intro c1 c2 c3 c4 rest
    have h : cellTruthy (Cell.str "") = false := by decide
    simp [parseRow, h]
  · intro c0 c1 c2 c3 c4 rest h
    cases hct : cellTruthy c0 <;> simp [parseRow, hct, h]
  · intro row rows h
    simp [parseRows, List.filterMap_cons, h]

/-- Witness for `load_amended`: a sheet with a header, one good row and one
short row loads exactly the good row's parse. -/
theorem load_amended_witness :
    loadAlerts (Store.sheet [headerCells, serializeRule staleRule, [Cell.str "X"]]) []
      = (parseRows [serializeRule staleRule, [Cell.str "X"]], true) ∧
    parseRow [Cell.str "X"] = none := by
  constructor
  · exact load_amended.2.2.2.1 _ [] (by simp [headerCells])
  · exact load_amended.2.2.2.2.1 [Cell.str "X"] (by simp)

/-- C1 (code bug): the alert-check loop never consults a rule's status — a
rule with status `Inactive` whose condition holds against the current table
emits a notification during the cycle. -/
theorem inactive_rule_fires :
    inactiveRule.status = "Inactive" ∧
    alertNotifs [inactiveRule] [btcRow] = [⟨"BTCUSD", "UPNL (USD)", ">=", 10⟩] := by
  refine ⟨rfl, ?_⟩
  have hp : parseDec "20.00" = some (2000, 2) := by decide
  have hv : parseFloat? "20.00" = some ((2000 : ℚ) / 10 ^ 2) := by
    simp [parseFloat?, hp]
  have hc : condHolds ">=" ((2000 : ℚ) / 10 ^ 2) 10 = true := by
    simp only [condHolds, if_pos rfl, decide_eq_true_eq, ge_iff_le]
    norm_num
  simp [alertNotifs, evalAlert, inactiveRule, btcRow, rowGet, hv, hc]

/-- Under `spotSymbolSafe` the `spot_index` step cannot raise. -/
theorem spotStep_ok (prod : List (String × PyVal)) (h : spotSymbolSafe prod = true) :
    ∃ o, spotStep prod = Except.ok o := by
  unfold spotStep
  unfold spotSymbolSafe at h
  dsimp only at h ⊢
  generalize (if truthy (pyGet prod "spot_index") = true
      then pyGet prod "spot_index" else PyVal.dict []) = spot at h ⊢
  cases spot with
  | dict sd =>
    dsimp only at h ⊢
    generalize pyGet sd "symbol" = symV at h ⊢
    by_cases hts : truthy symV = true
    · simp only [hts, Bool.not_true, Bool.false_or] at h
      rw [if_pos hts]
      cases symV with
      | str s => exact ⟨classifyBtcEth (upperStr s), rfl⟩
      | none => exact absurd h (by simp)
      | bool b => exact absurd h (by simp)
      | int n => exact absurd h (by simp)
      | num q => exact absurd h (by simp)
      | list xs => exact absurd h (by simp)
      | dict es => exact absurd h (by simp)
    · rw [if_neg hts]
      exact ⟨classifyBtcEth (upperStr ""), rfl⟩
  | none => exact ⟨none, rfl⟩
  | bool b => exact ⟨none, rfl⟩
  | int n => exact ⟨none, rfl⟩
  | num q => exact ⟨none, rfl⟩
  | str s => exact ⟨none, rfl⟩
  | list xs => exact ⟨none, rfl⟩

/-- C4 counterexample: (i) with `underlying_symbol = "XRP"` — a string value
classifying to neither asset — the source keeps scanning and classifies the
NEXT key `underlying = "BTC"`, while the claim's first-present-string-key
algorithm yields unknown; (ii) a truthy non-string `spot_index.symbol` makes
the source raise `AttributeError`, against "never raises on malformed
metadata". -/
theorem detect_underlying_counterexample :
    detect_underlying
        (PyVal.dict [("underlying_symbol", PyVal.str "XRP"), ("underlying", PyVal.str "BTC")])
        "XRP_PERP" = Except.ok (some "BTC") ∧
    detectUnderlyingClaim
        (PyVal.dict [("underlying_symbol", PyVal.str "XRP"), ("underlying", PyVal.str "BTC")])
        "XRP_PERP" = none ∧
    detect_underlying (PyVal.dict [("spot_index", PyVal.dict [("symbol", PyVal.int 5)])])
        "XRP_PERP" = Except.error "AttributeError" := by
  exact ⟨rfl, rfl, rfl⟩

/-- C4 amended: the detector scans the four keys in order and classifies the
first key whose string value (uppercased) contains `BTC` (else `ETH`); a key
whose value is a non-string, or a string containing neither, is passed over
and scanning continues; metadata with no BTC/ETH signal and fallback symbol
`"XRP_PERP"` yields unknown; and the detector never raises provided the
nested spot-index `symbol` is absent, falsy, or a string. -/
theorem detect_underlying_amended :
    (∀ p fb, spotSymbolSafe (entriesOf p) = true →
      ∃ r, detect_underlying p fb = Except.ok r) ∧
    (∀ prod k ks s r, pyGet prod k = PyVal.str s → classifyBtcEth (upperStr s) = some r →
      scanKeys prod (k :: ks) = some r) ∧
    (∀ prod k ks, (∀ s, pyGet prod k = PyVal.str s → classifyBtcEth (upperStr s) = none) →
      scanKeys prod (k :: ks) = scanKeys prod ks) ∧
    detect_underlying (PyVal.dict []) "XRP_PERP" = Except.ok none := by
  refine ⟨?_, ?_, ?_, rfl⟩
  · intro p fb h
    cases hscan : scanKeys (entriesOf p)
        ["underlying_symbol", "underlying", "base_asset_symbol", "settlement_asset_symbol"] with
    | some r => exact ⟨some r, by simp [detect_underlying, hscan]⟩
    | none =>
      obtain ⟨o, ho⟩ := spotStep_ok (entriesOf p) h
      cases o with
      | some r => exact ⟨some r, by simp [detect_underlying, hscan, ho]⟩
      | none => exact ⟨fallbackStep fb, by simp [detect_underlying, hscan, ho]⟩
  · intro prod k ks s r h1 h2
    simp [scanKeys, h1, h2]
  · intro prod k ks h
    cases hv : pyGet prod k with
    | str s => simp [scanKeys, hv, h s hv]
    | none => simp [scanKeys, hv]
    | bool b => simp [scanKeys, hv]
    | int n => simp [scanKeys, hv]
    | num q => simp [scanKeys, hv]
    | list xs => simp [scanKeys, hv]
    | dict es => simp [scanKeys, hv]

/-- Witness for `detect_underlying_amended`: a non-dict product never raises,
and a first key with a non-string value is passed over while the second key
classifies. -/
theorem detect_underlying_amended_witness :
    (∃ r, detect_underlying (PyVal.str "junk") "BTCUSD_PERP" = Except.ok r) ∧
    scanKeys [("underlying", PyVal.str "ethusd")] ["underlying_symbol", "underlying"]
      = some "ETH" := by
  constructor
  · exact detect_underlying_amended.1 (PyVal.str "junk") "BTCUSD_PERP" (by decide)
  · have h2 := detect_underlying_amended.2.2.1 [("underlying", PyVal.str "ethusd")]
      "underlying_symbol" ["underlying"]
      (fun s hs => by
        rw [show pyGet [("underlying", PyVal.str "ethusd")] "underlying_symbol" = PyVal.none
          from rfl] at hs
        cases hs)
    have h3 := detect_underlying_amended.2.1 [("underlying", PyVal.str "ethusd")]
      "underlying" [] "ethusd" "ETH" rfl (by decide)
    exact h2.trans h3

/-- A serialized rule with a nonempty symbol parses back unchanged. -/
theorem parseRow_serializeRule (r : Rule) (h : r.symbol ≠ "") :
    parseRow (serializeRule r) = some r := by
  have he : r.symbol.isEmpty = false := by
    cases hs : r.symbol.isEmpty
    · rfl
    · exact absurd ((String.isEmpty_iff r.symbol).mp hs) h
  simp [serializeRule, parseRow, cellTruthy, cellFloat?, cellStr, he]

/-- Serialize-then-parse is the identity on lists of nonempty-symbol rules. -/
theorem parseRows_map_serialize (alerts : List Rule) (h : ∀ r ∈ alerts, r.symbol ≠ "") :
    parseRows (alerts.map serializeRule) = alerts := by
  induction alerts with
  | nil => rfl
  | cons a as ih =>
    have ha := h a (by simp)
    have has : ∀ r ∈ as, r.symbol ≠ "" := fun r hr => h r (by simp [hr])
    simp only [List.map_cons, parseRows, List.filterMap_cons,
      parseRow_serializeRule a ha]
    simpa [parseRows] using ih has

/-- C5: round-trip persistence — writing the in-memory rules wholesale with
`save()` and then reading them back with `load()` reproduces the same rules
with identical symbol, criteria, condition, threshold and status. -/
theorem save_load_round_trip (alerts : List Rule) (h : ∀ r ∈ alerts, r.symbol ≠ "") :
    loadAlerts (Store.sheet (saveSheet alerts)) alerts = (alerts, true) := by
  cases alerts with
  | nil => rfl
  | cons a as =>
    have hlen : ¬ (headerCells :: List.map serializeRule (a :: as)).length ≤ 1 := by
      simp
    simp only [loadAlerts, saveSheet, List.tail_cons]
    rw [if_neg hlen, parseRows_map_serialize _ h]

/-- Witness for `save_load_round_trip` with two rules covering both statuses
and fractional/negative thresholds. -/
theorem save_load_round_trip_witness :
    loadAlerts
        (Store.sheet (saveSheet
          [⟨"BTCUSD", "UPNL (USD)", ">=", 7 / 2, "Active"⟩,
           ⟨"ETHUSD", "Mark Price", "<=", -2, "Inactive"⟩]))
        [⟨"BTCUSD", "UPNL (USD)", ">=", 7 / 2, "Active"⟩,
         ⟨"ETHUSD", "Mark Price", "<=", -2, "Inactive"⟩]
      = ([⟨"BTCUSD", "UPNL (USD)", ">=", 7 / 2, "Active"⟩,
          ⟨"ETHUSD", "Mark Price", "<=", -2, "Inactive"⟩], true) :=
  save_load_round_trip _ (by
    intro r hr
    rcases List.mem_cons.mp hr with h | h
    · subst h; decide
    · rcases List.mem_singleton.mp h with h
      subst h; decide)

/-- First-match invariant of the ticker fold for the BTC entry. -/
theorem foldl_indexMap_fst (ts : List Ticker) (m : Option ℚ × Option ℚ) :
    (ts.foldl stepIndexMap m).1 =
      match m.1 with
      | some p => some p
      | none => (ts.find? qualifiesBTC).bind tickPrice? := by
  induction ts generalizing m with
  | nil => cases m1 : m.1 <;> simp [m1]
  | cons t ts ih =>
    rw [List.foldl_cons, ih]
    cases m1 : m.1 with
    | some p =>
      have hstep : (stepIndexMap m t).1 = some p := by
        unfold stepIndexMap
        cases htp : tickPrice? t
        · simpa [htp] using m1
        · simp [htp, m1]
      simp [hstep]
    | none =>
      cases htp : tickPrice? t with
      | none =>
        have hq : qualifiesBTC t = false := by simp [qualifiesBTC, htp]
        have hstep : stepIndexMap m t = m := by simp [stepIndexMap, htp]
        simp [hstep, m1, List.find?_cons, hq]
      | some p =>
        cases hb1 : containsSub (tickSym t) "BTC" with
        | false =>
          have hq : qualifiesBTC t = false := by simp [qualifiesBTC, hb1]
          have hstep : (stepIndexMap m t).1 = none := by
            simp [stepIndexMap, htp, hb1, m1]
          simp [hstep, List.find?_cons, hq]
        | true =>
          cases hb2 : containsSub (tickSym t) "USD" with
          | false =>
            have hq : qualifiesBTC t = false := by simp [qualifiesBTC, hb2]
            have hstep : (stepIndexMap m t).1 = none := by
              simp [stepIndexMap, htp, hb1, hb2, m1]
            simp [hstep, List.find?_cons, hq]
          | true =>
            have hq : qualifiesBTC t = true := by simp [qualifiesBTC, htp, hb1, hb2]
            have hstep : (stepIndexMap m t).1 = some p := by
              simp [stepIndexMap, htp, hb1, hb2, m1]
            simp [hstep, List.find?_cons, hq, htp]

/-- First-match invariant of the ticker fold for the ETH entry. -/
theorem foldl_indexMap_snd (ts : List Ticker) (m : Option ℚ × Option ℚ) :
    (ts.foldl stepIndexMap m).2 =
      match m.2 with
      | some p => some p
      | none => (ts.find? qualifiesETH).bind tickPrice? := by
  induction ts generalizing m with
  | nil => cases m2 : m.2 <;> simp [m2]
  | cons t ts ih =>
    rw [List.foldl_cons, ih]
    cases m2 : m.2 with
    | some p =>
      have hstep : (stepIndexMap m t).2 = some p := by
        unfold stepIndexMap
        cases htp : tickPrice? t
        · simpa [htp] using m2
        · simp [htp, m2]
      simp [hstep]
    | none =>
      cases htp : tickPrice? t with
      | none =>
        have hq : qualifiesETH t = false := by simp [qualifiesETH, htp]
        have hstep : stepIndexMap m t = m := by simp [stepIndexMap, htp]
        simp [hstep, m2, List.find?_cons, hq]
      | some p =>
        cases hb1 : containsSub (tickSym t) "ETH" with
        | false =>
          have hq : qualifiesETH t = false := by simp [qualifiesETH, hb1]
          have hstep : (stepIndexMap m t).2 = none := by
            simp [stepIndexMap, htp, hb1, m2]
          simp [hstep, List.find?_cons, hq]
        | true =>
          cases hb2 : containsSub (tickSym t) "USD" with
          | false =>
            have hq : qualifiesETH t = false := by simp [qualifiesETH, hb2]
            have hstep : (stepIndexMap m t).2 = none := by
              simp [stepIndexMap, htp, hb1, hb2, m2]
            simp [hstep, List.find?_cons, hq]
          | true =>
            have hq : qualifiesETH t = true := by simp [qualifiesETH, htp, hb1, hb2]
            have hstep : (stepIndexMap m t).2 = some p := by
              simp [stepIndexMap, htp, hb1, hb2, m2]
            simp [hstep, List.find?_cons, hq, htp]

/-- C6: each asset takes its price from the FIRST ticker whose coerced price
is non-falsy and whose uppercased symbol contains both the asset name and
`USD`; every later qualifying ticker is ignored — two `BTCUSD` tickers with
mark prices `"50000"` then `"51000"` yield `BTC → 50000`. -/
theorem index_map_first_match (tickers : List Ticker) :
    (index_map tickers).1 = (tickers.find? qualifiesBTC).bind tickPrice? ∧
    (index_map tickers).2 = (tickers.find? qualifiesETH).bind tickPrice? ∧
    index_map
        [⟨some "BTCUSD", PyVal.none, PyVal.none, PyVal.none, PyVal.str "50000"⟩,
         ⟨some "BTCUSD", PyVal.none, PyVal.none, PyVal.none, PyVal.str "51000"⟩]
      = (some 50000, none) := by
  refine ⟨?_, ?_, ?_⟩
  · simpa using foldl_indexMap_fst tickers (none, none)
  · simpa using foldl_indexMap_snd tickers (none, none)
  · have hp1 : parseDec "50000" = some (50000, 0) := by decide
    have hp2 : parseDec "51000" = some (51000, 0) := by decide
    have hq1 : parseFloat? "50000" = some (50000 : ℚ) := by
      rw [parseFloat?, hp1, Option.map_some']
      norm_num
    have hq2 : parseFloat? "51000" = some (51000 : ℚ) := by
      rw [parseFloat?, hp2, Option.map_some']
      norm_num
    have ht1 : tickPrice? ⟨some "BTCUSD", PyVal.none, PyVal.none, PyVal.none, PyVal.str "50000"⟩
        = some 50000 := by
      unfold tickPrice?
      rw [show to_float (tickRawPrice
          ⟨some "BTCUSD", PyVal.none, PyVal.none, PyVal.none, PyVal.str "50000"⟩)
        = parseFloat? "50000" from rfl, hq1]
      norm_num
    have ht2 : tickPrice? ⟨some "BTCUSD", PyVal.none, PyVal.none, PyVal.none, PyVal.str "51000"⟩
        = some 51000 := by
      unfold tickPrice?
      rw [show to_float (tickRawPrice
          ⟨some "BTCUSD", PyVal.none, PyVal.none, PyVal.none, PyVal.str "51000"⟩)
        = parseFloat? "51000" from rfl, hq2]
      norm_num
    have hB : containsSub (upperStr "BTCUSD") "BTC" = true := by decide
    have hU : containsSub (upperStr "BTCUSD") "USD" = true := by decide
    have hE : containsSub (upperStr "BTCUSD") "ETH" = false := by decide
    simp [index_map, stepIndexMap, ht1, ht2, tickSym, hB, hU, hE]

/-- The descending key comparison is transitive. -/
theorem rowLE_trans : ∀ a b c : Row, rowLE a b → rowLE b c → rowLE a c := by
  intro a b c hab hbc
  simp only [rowLE, decide_eq_true_eq] at *
  exact le_trans hbc hab

/-- The descending key comparison is total. -/
theorem rowLE_total : ∀ a b : Row, rowLE a b || rowLE b a := by
  intro a b
  simp only [rowLE, Bool.or_eq_true, decide_eq_true_eq]
  exact le_total (sortKey b.upnl) (sortKey a.upnl)

/-- A present `upnl` string that parses has a nonnegative sort key. -/
theorem sortKey_nonneg_of_parses (s : String) (hps : (parseFloat? s).isSome = true) :
    0 ≤ sortKey (some s) := by
  obtain ⟨q, hq⟩ := Option.isSome_iff_exists.mp hps
  have hse : s.isEmpty = false := by
    cases hse : s.isEmpty
    · rfl
    · have hnone : parseFloat? "" = none := by decide
      rw [(String.isEmpty_iff s).mp hse] at hq
      rw [hnone] at hq
      cases hq
  simp only [sortKey, hse, Bool.false_eq_true, if_false, hq]
  exact abs_nonneg q

/-- A pairwise-descending permutation of a list whose keys are pairwise
distinct is unique: with no ties, the sort guarantee pins down the order. -/
theorem sortSpec_unique (l₂ : List Row) :
    ∀ l₁ : List Row, l₁.Perm l₂ →
    l₁.Pairwise (fun a b => sortKey b.upnl ≤ sortKey a.upnl) →
    l₂.Pairwise (fun a b => sortKey b.upnl ≤ sortKey a.upnl) →
    l₂.Pairwise (fun a b => sortKey a.upnl ≠ sortKey b.upnl) →
    l₁ = l₂ := by
  induction l₂ with
  | nil =>
    intro l₁ hp h₁ h₂ hd
    exact List.perm_nil.mp hp
  | cons b t ih =>
    intro l₁ hp h₁ h₂ hd
    cases l₁ with
    | nil => exact absurd (List.perm_nil.mp hp.symm) (by simp)
    | cons a s =>
      have hab : a = b := by
        by_contra hne
        have hat : a ∈ t := by
          rcases List.mem_cons.mp (hp.subset (List.mem_cons_self a s)) with h | h
          · exact absurd h hne
          · exact h
        have hbs : b ∈ s := by
          rcases List.mem_cons.mp (hp.symm.subset (List.mem_cons_self b t)) with h | h
          · exact absurd h.symm hne
          · exact h
        have hba : sortKey b.upnl ≤ sortKey a.upnl := (List.pairwise_cons.mp h₁).1 b hbs
        have hab2 : sortKey a.upnl ≤ sortKey b.upnl := (List.pairwise_cons.mp h₂).1 a hat
        exact (List.pairwise_cons.mp hd).1 a hat (le_antisymm hba hab2)
      subst hab
      rw [ih s hp.cons_inv h₁.of_cons h₂.of_cons hd.of_cons]

/-- C3 (code bug): line 269 sorts with the key `abs(float(v)) if v else
-999999`, descending, but through pandas' DEFAULT sort kind — quicksort,
documented as not stable, with descending order obtained from a reversed
ascending argsort — so all the call guarantees is `sortSpec`: a permutation
of the rows, pairwise descending in that key.  Under that guarantee every
valued row precedes every null row, and on the example table, whose keys are
distinct, the output is forced to `[-20, 5, null]`; but for two rows of
equal absolute upnl BOTH orders are admissible — the claim's "stable for
ties" is not something the code guarantees.  `sortRows` realizes the
guarantee with one concrete tie order. -/
theorem table_sort_guarantees :
    (∀ rows : List Row, sortSpec rows (sortRows rows)) ∧
    (∀ rows out : List Row, sortSpec rows out →
      (∀ r ∈ rows, ∀ s, r.upnl = some s → (parseFloat? s).isSome = true) →
      out.Pairwise (fun a b => a.upnl = none → b.upnl = none)) ∧
    (∀ out : List Row, sortSpec [row5, rowNull, rowNeg20] out →
      out = [rowNeg20, row5, rowNull]) ∧
    sortSpec [rowTieA, rowTieB] [rowTieA, rowTieB] ∧
    sortSpec [rowTieA, rowTieB] [rowTieB, rowTieA] ∧
    rowTieA ≠ rowTieB := by
  have hp5 : parseDec "5.00" = some (500, 2) := by decide
  have hp20 : parseDec "-20.00" = some (-2000, 2) := by decide
  have hpm5 : parseDec "-5.00" = some (-500, 2) := by decide
  have hie5 : ("5.00" : String).isEmpty = false := by decide
  have hie20 : ("-20.00" : String).isEmpty = false := by decide
  have hiem5 : ("-5.00" : String).isEmpty = false := by decide
  have h1 : parseFloat? "5.00" = some (5 : ℚ) := by norm_num [parseFloat?, hp5]
  have h2 : parseFloat? "-20.00" = some (-20 : ℚ) := by norm_num [parseFloat?, hp20]
  have h3 : parseFloat? "-5.00" = some (-5 : ℚ) := by norm_num [parseFloat?, hpm5]
  have hk5 : sortKey row5.upnl = 5 := by
    have h : sortKey row5.upnl = |(5 : ℚ)| := by
      simp only [row5, sortKey, hie5, Bool.false_eq_true, if_false, h1]
    rw [h, abs_of_nonneg (by norm_num : (0 : ℚ) ≤ 5)]
  have hkN : sortKey rowNull.upnl = -999999 := rfl
  have hk20 : sortKey rowNeg20.upnl = 20 := by
    have h : sortKey rowNeg20.upnl = |(-20 : ℚ)| := by
      simp only [rowNeg20, sortKey, hie20, Bool.false_eq_true, if_false, h2]
    rw [h, abs_of_nonpos (by norm_num : (-20 : ℚ) ≤ 0)]
    norm_num
  have hkA : sortKey rowTieA.upnl = 5 := by
    have h : sortKey rowTieA.upnl = |(5 : ℚ)| := by
      simp only [rowTieA, sortKey, hie5, Bool.false_eq_true, if_false, h1]
    rw [h, abs_of_nonneg (by norm_num : (0 : ℚ) ≤ 5)]
  have hkB : sortKey rowTieB.upnl = 5 := by
    have h : sortKey rowTieB.upnl = |(-5 : ℚ)| := by
      simp only [rowTieB, sortKey, hiem5, Bool.false_eq_true, if_false, h3]
    rw [h, abs_of_nonpos (by norm_num : (-5 : ℚ) ≤ 0)]
    norm_num
  have htieAB : ([rowTieB] : List Row).Pairwise
      (fun a b => sortKey b.upnl ≤ sortKey a.upnl) := by
    exact List.Pairwise.cons (fun x hx => absurd hx (List.not_mem_nil x)) List.Pairwise.nil
  refine ⟨?_, ?_, ?_, ?_, ?_, ?_⟩
  · intro rows
    refine ⟨List.mergeSort_perm rows rowLE, ?_⟩
    have h := List.sorted_mergeSort rowLE_trans rowLE_total rows
    exact h.imp (fun hab => by simpa [rowLE] using hab)
  · rintro rows out ⟨hperm, hpair⟩ hw
    refine hpair.imp_of_mem (fun {a b} ha hb hle => ?_)
    intro hna
    cases hbu : b.upnl with
    | none => rfl
    | some s =>
      have hmb : b ∈ rows := hperm.subset hb
      have hps := hw b hmb s hbu
      have h0 : (0 : ℚ) ≤ sortKey b.upnl := by
        rw [hbu]; exact sortKey_nonneg_of_parses s hps
      rw [hna] at hle
      have hkn : sortKey (none : Option String) = -999999 := rfl
      rw [hkn] at hle
      linarith
  · rintro out ⟨hperm, hpair⟩
    have htgt : ([row5, rowNull, rowNeg20] : List Row).Perm [rowNeg20, row5, rowNull] :=
      (List.Perm.cons row5 (List.Perm.swap rowNeg20 rowNull [])).trans
        (List.Perm.swap rowNeg20 row5 [rowNull])
    have hdesc : ([rowNeg20, row5, rowNull] : List Row).Pairwise
        (fun a b => sortKey b.upnl ≤ sortKey a.upnl) := by
      refine List.Pairwise.cons ?_ (List.Pairwise.cons ?_ (List.Pairwise.cons
        (fun x hx => absurd hx (List.not_mem_nil x)) List.Pairwise.nil))
      · intro x hx
        rcases List.mem_cons.mp hx with h | h
        · subst h; rw [hk5, hk20]; norm_num
        · rw [List.mem_singleton.mp h, hkN, hk20]; norm_num
      · intro x hx
        rw [List.mem_singleton.mp hx, hkN, hk5]; norm_num
    have hdist : ([rowNeg20, row5, rowNull] : List Row).Pairwise
        (fun a b => sortKey a.upnl ≠ sortKey b.upnl) := by
      refine List.Pairwise.cons ?_ (List.Pairwise.cons ?_ (List.Pairwise.cons
        (fun x hx => absurd hx (List.not_mem_nil x)) List.Pairwise.nil))
      · intro x hx
        rcases List.mem_cons.mp hx with h | h
        · subst h; rw [hk5, hk20]; norm_num
        · rw [List.mem_singleton.mp h, hkN, hk20]; norm_num
      · intro x hx
        rw [List.mem_singleton.mp hx, hkN, hk5]; norm_num
    exact sortSpec_unique [rowNeg20, row5, rowNull] out (hperm.trans htgt) hpair hdesc hdist
  · refine ⟨List.Perm.refl _, List.Pairwise.cons ?_ htieAB⟩
    intro x hx
    rw [List.mem_singleton.mp hx, hkA, hkB]
  · refine ⟨List.Perm.swap rowTieA rowTieB [], List.Pairwise.cons ?_ ?_⟩
    · intro x hx
      rw [List.mem_singleton.mp hx, hkA, hkB]
    · exact List.Pairwise.cons (fun x hx => absurd hx (List.not_mem_nil x)) List.Pairwise.nil
  · intro h
    have hsym : rowTieA.symbol = rowTieB.symbol := by rw [h]
    exact absurd hsym (by decide)

/-- Witness for `table_sort_guarantees`: the executable realization attains
the forced order on the example table, and that output has its null row
last. -/
theorem table_sort_guarantees_witness :
    sortRows [row5, rowNull, rowNeg20] = [rowNeg20, row5, rowNull] ∧
    ([rowNeg20, row5, rowNull] : List Row).Pairwise
      (fun a b => a.upnl = none → b.upnl = none) := by
  have hre := table_sort_guarantees.1 [row5, rowNull, rowNeg20]
  have heq := table_sort_guarantees.2.2.1 (sortRows [row5, rowNull, rowNeg20]) hre
  refine ⟨heq, ?_⟩
  refine table_sort_guarantees.2.1 [row5, rowNull, rowNeg20] [rowNeg20, row5, rowNull] ?_ ?_
  · rw [← heq]; exact hre
  · intro r hr s hs
    simp only [List.mem_cons, List.not_mem_nil, or_false] at hr
    rcases hr with h | h | h <;> subst h
    · rw [show row5.upnl = some "5.00" from rfl] at hs
      injection hs with hs'
      subst hs'
      decide
    · rw [show rowNull.upnl = (none : Option String) from rfl] at hs
      cases hs
    · rw [show rowNeg20.upnl = some "-20.00" from rfl] at hs
      injection hs with hs'
      subst hs'
      decide

end PosStreamlit
